import Mathlib

/-!
Verification of the number-guessing program in `src/main.rs`.

The Rust source is embedded shallowly:
* `Guess` / `Guess.new` / the `value` accessor model the validated-guess type
  (the `panic!` in `Guess::new` becomes the `.error` branch of an `Except`);
* `guess_a_number`'s loop body becomes the pure step function `turn`, taking
  the two freshly drawn pool indices and the raw input line of that turn;
  fatal `expect`/`panic!` paths become the `.fatal` constructor;
* `rand::thread_rng().gen_range(lo..hi)` becomes `gen_range` / `gen_range_int`
  applied to an externally supplied raw random value, reducing it into
  `[lo, hi)` by the modulus;
* the whole loop becomes `runLoop`, structurally recursive over the list of
  (random draws, input line) per turn, and `guess_a_number` wires in the
  secret-number draw, the attempt counter starting at 0 and the two welcome
  lines.
-/

namespace RustErrHandling

/-- The `small_variations` message pool from `guess_a_number` (ten strings). -/
def small_variations : List String := [
  "Well, butter my biscuit! That guess is smaller than a flea on a flea's back! Try again!",
  "Oh dear, that guess is tinier than a teaspoon in a sea of soup! Give it another shot!",
  "Whoa, that guess is smaller than a pixel on a smartphone screen! Back to the drawing board!",
  "Yikes! That guess is smaller than a seed in a sunflower! Let's aim higher, shall we?",
  "Goodness gracious! That guess is smaller than a snowflake in July! Let's try something bigger!",
  "Oh my stars! That guess is smaller than a teaspoon in a galaxy-sized cup of cosmic cocoa! Give it another go!",
  "Golly gee! That guess is tinier than a tater tot in a toddler's lunchbox! Let's aim higher, champ!",
  "Holy guacamole! That guess is smaller than a seed in an avocado! Time to think bigger!",
  "Oh snap! That guess is smaller than a speck of dust on a flea's wing! Let's beef it up!",
  "Well, slap my knee! That guess is smaller than a raindrop in a desert! Try again, partner!"
]

/-- The `large_variations` message pool from `guess_a_number` (ten strings). -/
def large_variations : List String := [
  "Whoa there, that guess is bigger than a burger on cheat day! But not quite right!",
  "Hoo boy, that guess is larger than a slice of cake at a birthday party! Try again!",
  "Holy moly, that guess is grander than a triple-decker sandwich! Let's dial it back a bit!",
  "Goodness gracious, that guess is as huge as a whale in a goldfish bowl! Try something smaller!",
  "Gee whiz, that guess is larger than a mountain in a molehill contest! Let's scale it down!",
  "Well, slap my hand! That guess is bigger than Texas on a map! Let's rein it in a tad!",
  "Whoopsie daisy! That guess is bigger than a bus in a bike lane! Try something more modest!",
  "Oh my, that guess is larger than life itself! But alas, not quite right! Try again, champ!",
  "Hold your horses! That guess is bigger than a parade float on a sidewalk! Let's trim it down!",
  "Whoosh! That guess is flying higher than a kite in a thunderstorm! Bring it back to earth, buddy!"
]

/-- `rand::thread_rng().gen_range(lo..hi)` on `usize`: the raw random value
`r` supplied by the generator, reduced into the half-open range `[lo, hi)`. -/
def gen_range (lo hi : Nat) (r : Nat) : Nat := lo + r % (hi - lo)

/-- `rand::thread_rng().gen_range(lo..hi)` on `i32` (used for the secret
number): the raw random value reduced into `[lo, hi)`. -/
def gen_range_int (lo hi : Int) (r : Nat) : Int := lo + ((r % (hi - lo).toNat : Nat) : Int)

/-- `struct Guess { value: i32 }`. -/
structure Guess where
  value : Int
deriving Repr, DecidableEq

/-- `Guess::new`: returns the guess for `1 <= value <= 100`, otherwise the
`panic!` branch, modelled as the error of an `Except` carrying the panic
message `"Guess value must be between 1 and 100, got {value}"`. -/
def Guess.new (value : Int) : Except String Guess :=
  if value < 1 ∨ value > 100 then
    .error ("Guess value must be between 1 and 100, got " ++ toString value)
  else
    .ok { value := value }

/-- Whitespace as recognised by `str::trim` (ASCII subset, which covers the
space/tab/newline/carriage-return characters a stdin line can carry). -/
def isWhitespaceChar (c : Char) : Bool :=
  c = ' ' ∨ c = '\t' ∨ c = '\n' ∨ c = '\r'

/-- `str::trim`: strip leading and trailing whitespace. -/
def trimChars (s : List Char) : List Char :=
  ((s.dropWhile isWhitespaceChar).reverse.dropWhile isWhitespaceChar).reverse

/-- Value of one base-10 digit character, `none` on a non-digit. -/
def digitVal (c : Char) : Option Nat :=
  if '0' ≤ c ∧ c ≤ '9' then some (c.toNat - '0'.toNat) else none

/-- Parse a nonempty all-digit character sequence as a natural number. -/
def parseNatDigits (cs : List Char) : Option Nat :=
  match cs with
  | [] => none
  | _ => cs.foldl (fun acc c => acc.bind (fun n => (digitVal c).map (fun d => n * 10 + d)))
      (some 0)

/-- Parse an optionally signed base-10 integer, as `i32::from_str` does
before the width check. -/
def parseIntChars : List Char → Option Int
  | '-' :: rest => (parseNatDigits rest).map (fun n => -(n : Int))
  | '+' :: rest => (parseNatDigits rest).map (fun n => (n : Int))
  | cs => (parseNatDigits cs).map (fun n => (n : Int))

/-- `guess.trim().parse::<i32>()`: trims the line, parses a base-10 integer,
and fails when the value does not fit in an `i32`. -/
def parseI32 (s : String) : Option Int :=
  match parseIntChars (trimChars s.data) with
  | some n => if -2147483648 ≤ n ∧ n ≤ 2147483647 then some n else none
  | none => none

/-- `i32::cmp` (`Ordering::Less` / `Ordering::Greater` / `Ordering::Equal`). -/
def cmp (a b : Int) : Ordering :=
  if a < b then .lt else if b < a then .gt else .eq

/-- The mutable state of one game session: the secret number (immutable in
the source, a plain `let`) and the `attempts` counter. -/
structure GameState where
  secret : Int
  attempts : Int
deriving Repr, DecidableEq

/-- Outcome of one iteration of the `loop` body: continue looping (`again`),
`break` after the victory message (`terminated`), or a `panic!`/`expect`
abort (`fatal`).  Each carries the state after the iteration and the lines
printed during it. -/
inductive TurnResult where
  | again (st : GameState) (output : List String)
  | terminated (st : GameState) (output : List String)
  | fatal (st : GameState) (msg : String) (output : List String)
deriving Repr, DecidableEq

/-- The state carried by a `TurnResult`. -/
def TurnResult.state : TurnResult → GameState
  | .again st _ => st
  | .terminated st _ => st
  | .fatal st _ _ => st

/-- One iteration of the `loop` in `guess_a_number`.  `rs` and `rl` are the
raw random values behind the two `gen_range` calls for this turn;
`input_line` is the line read from stdin.  In source order: both pool
indices are drawn, the line is parsed (`expect("guess must be a number")`
aborts on failure), `Guess::new` validates (panicking out of range),
`attempts += 1`, then the three-way `cmp` against the secret selects the
message or the victory `break`.  Array indexing that would be out of bounds
is a Rust panic, modelled as `.fatal`. -/
def turn (rs rl : Nat) (input_line : String) (st : GameState) : TurnResult :=
  let random_index_small := gen_range 0 small_variations.length rs
  let random_index_large := gen_range 0 large_variations.length rl
  match parseI32 input_line with
  | none => .fatal st "guess must be a number" []
  | some guess_num =>
    match Guess.new guess_num with
    | .error e => .fatal st e []
    | .ok guess =>
      let st' : GameState := { st with attempts := st.attempts + 1 }
      match cmp guess.value st'.secret with
      | .lt =>
        match small_variations[random_index_small]? with
        | some m => .again st' [m]
        | none => .fatal st' "index out of bounds" []
      | .gt =>
        match large_variations[random_index_large]? with
        | some m => .again st' [m]
        | none => .fatal st' "index out of bounds" []
      | .eq =>
        .terminated st'
          ["Cue the confetti!!",
           "The secret number is indeed " ++ toString st'.secret ++
             "! You guessed it right with only " ++ toString st'.attempts ++ " tries! "]

/-- Result of running the loop on a finite schedule of turns: the victory
`break`, a fatal abort, or the schedule ran out with the loop still going. -/
inductive RunResult where
  | terminated (st : GameState) (output : List String)
  | fatal (st : GameState) (msg : String) (output : List String)
  | outOfTurns (st : GameState) (output : List String)
deriving Repr, DecidableEq

/-- The state carried by a `RunResult`. -/
def RunResult.state : RunResult → GameState
  | .terminated st _ => st
  | .fatal st _ _ => st
  | .outOfTurns st _ => st

/-- The `loop` of `guess_a_number`, run over a finite schedule: each entry
holds the two raw random values of that turn and the input line.  Output
lines accumulate in `out`. -/
def runLoop : List (Nat × Nat × String) → GameState → List String → RunResult
  | [], st, out => .outOfTurns st out
  | (rs, rl, line) :: rest, st, out =>
    match turn rs rl line st with
    | .again st' o => runLoop rest st' (out ++ o)
    | .terminated st' o => .terminated st' (out ++ o)
    | .fatal st' m o => .fatal st' m (out ++ o)

/-- `guess_a_number`: draws the secret number from `gen_range(0..100)` using
the raw random value `secret_seed`, starts `attempts` at 0, prints the two
welcome lines, and runs the loop on the given schedule. -/
def guess_a_number (secret_seed : Nat) (schedule : List (Nat × Nat × String)) : RunResult :=
  let secret_number := gen_range_int 0 100 secret_seed
  runLoop schedule { secret := secret_number, attempts := 0 }
    ["Welcome to the guessing game of epic proportions!",
     "Alrighty, what number are you tossing into the ring today?"]

/-- Number of loop iterations actually executed on a schedule (every
non-`again` result ends the loop on the iteration that produced it). -/
def consumedTurns : List (Nat × Nat × String) → GameState → Nat
  | [], _ => 0
  | (rs, rl, line) :: rest, st =>
    match turn rs rl line st with
    | .again st' _ => 1 + consumedTurns rest st'
    | _ => 1

example : parseI32 "42" = some 42 := by decide
example : parseI32 "abc" = none := by decide
example : parseI32 " 150\n" = some 150 := by decide
example : turn 0 0 "50" { secret := 50, attempts := 2 } =
    .terminated { secret := 50, attempts := 3 }
      ["Cue the confetti!!",
       "The secret number is indeed 50! You guessed it right with only 3 tries! "] := by decide

/-! ### Shared helper lemmas -/

theorem small_variations_length : small_variations.length = 10 := rfl

theorem large_variations_length : large_variations.length = 10 := rfl

/-- Exhaustive description of how one loop iteration can change the state:
the secret is never changed; `again` and `terminated` carry exactly the
attempt counter incremented by one; a `fatal` abort carries either the
untouched state (parse or range failure, before `attempts += 1`) or the
incremented one. -/
theorem turn_cases (rs rl : Nat) (line : String) (st : GameState) :
    (turn rs rl line st).state.secret = st.secret ∧
    (∀ st' o, turn rs rl line st = .again st' o → st' = { st with attempts := st.attempts + 1 }) ∧
    (∀ st' o, turn rs rl line st = .terminated st' o →
        st' = { st with attempts := st.attempts + 1 }) ∧
    (∀ st' m o, turn rs rl line st = .fatal st' m o →
        st' = st ∨ st' = { st with attempts := st.attempts + 1 }) := by
  unfold turn
  cases hp : parseI32 line with
  | none =>
    simp [TurnResult.state]
    intro st' m o h1 _ _
    exact Or.inl h1.symm
  | some g =>
    by_cases hg : g < 1 ∨ g > 100
    · simp [Guess.new, if_pos hg, TurnResult.state]
      intro st' m o h1 _ _
      exact Or.inl h1.symm
    · simp only [Guess.new, if_neg hg]
      cases hc : cmp g st.secret with
      | lt =>
        cases hm : small_variations[gen_range 0 small_variations.length rs]? with
        | none =>
          simp [hc, hm, TurnResult.state]
          intro st' m o h1 _ _
          exact Or.inr h1.symm
        | some m => simp [hc, hm, TurnResult.state]
      | gt =>
        cases hm : large_variations[gen_range 0 large_variations.length rl]? with
        | none =>
          simp [hc, hm, TurnResult.state]
          intro st' m o h1 _ _
          exact Or.inr h1.symm
        | some m => simp [hc, hm, TurnResult.state]
      | eq => simp [hc, TurnResult.state]

/-- A turn whose validated guess is below the secret: `again`, the attempt
counter bumped, and exactly the drawn `small_variations` message printed. -/
theorem turn_lt_eq (rs rl : Nat) (line : String) (st : GameState) (g : Int)
    (hp : parseI32 line = some g) (hg : ¬(g < 1 ∨ g > 100)) (hlt : g < st.secret) :
    turn rs rl line st = .again { st with attempts := st.attempts + 1 }
      [small_variations.getD (rs % 10) ""] := by
  have hc : cmp g st.secret = .lt := by simp [cmp, hlt]
  have hidx : gen_range 0 small_variations.length rs < small_variations.length := by
    simp [gen_range, small_variations_length]
    omega
  have hgen : gen_range 0 small_variations.length rs = rs % 10 := by
    simp [gen_range, small_variations_length]
  unfold turn
  simp only [hp, Guess.new, if_neg hg, hc, List.getElem?_eq_getElem hidx,
    List.getD_eq_getElem?_getD]
  simp [List.getElem?_eq_getElem hidx, hc]
  rw [← hgen, List.getElem?_eq_getElem hidx, Option.getD_some]

/-- A turn whose validated guess is above the secret: `again`, the attempt
counter bumped, and exactly the drawn `large_variations` message printed. -/
theorem turn_gt_eq (rs rl : Nat) (line : String) (st : GameState) (g : Int)
    (hp : parseI32 line = some g) (hg : ¬(g < 1 ∨ g > 100)) (hgt : st.secret < g) :
    turn rs rl line st = .again { st with attempts := st.attempts + 1 }
      [large_variations.getD (rl % 10) ""] := by
  have hc : cmp g st.secret = .gt := by
    simp [cmp, hgt, not_lt.mpr (le_of_lt hgt)]
  have hidx : gen_range 0 large_variations.length rl < large_variations.length := by
    simp [gen_range, large_variations_length]
    omega
  have hgen : gen_range 0 large_variations.length rl = rl % 10 := by
    simp [gen_range, large_variations_length]
  unfold turn
  simp only [hp, Guess.new, if_neg hg, hc, List.getElem?_eq_getElem hidx,
    List.getD_eq_getElem?_getD]
  simp [List.getElem?_eq_getElem hidx, hc]
  rw [← hgen, List.getElem?_eq_getElem hidx, Option.getD_some]

/-- The loop never changes the secret number, whichever way it ends. -/
theorem runLoop_state_secret (schedule : List (Nat × Nat × String)) :
    ∀ (st : GameState) (out : List String),
      ((runLoop schedule st out).state).secret = st.secret := by
  induction schedule with
  | nil => intro st out; rfl
  | cons e rest ih =>
    obtain ⟨rs, rl, line⟩ := e
    intro st out
    have h := turn_cases rs rl line st
    unfold runLoop
    cases ht : turn rs rl line st with
    | again st' o =>
      have h1 := h.2.1 st' o ht
      subst h1
      exact ih _ _
    | terminated st' o =>
      have h1 := h.2.2.1 st' o ht
      subst h1
      rfl
    | fatal st' m o =>
      rcases h.2.2.2 st' m o ht with h1 | h1 <;> subst h1 <;> rfl

/-- When the loop ends in the victory `break`, the final attempt counter is
the initial one plus the number of iterations the loop actually ran. -/
theorem runLoop_terminated_attempts (schedule : List (Nat × Nat × String)) :
    ∀ (st : GameState) (out : List String) (st' : GameState) (o : List String),
      runLoop schedule st out = .terminated st' o →
      st'.attempts = st.attempts + (consumedTurns schedule st : Int) := by
  induction schedule with
  | nil =>
    intro st out st' o h
    simp [runLoop] at h
  | cons e rest ih =>
    obtain ⟨rs, rl, line⟩ := e
    intro st out st' o h
    have hc := turn_cases rs rl line st
    unfold runLoop at h
    unfold consumedTurns
    cases ht : turn rs rl line st with
    | again st1 o1 =>
      rw [ht] at h
      have h1 := hc.2.1 st1 o1 ht
      have h2 := ih st1 (out ++ o1) st' o h
      subst h1
      simp at h2 ⊢
      omega
    | terminated st1 o1 =>
      rw [ht] at h
      have h1 := hc.2.2.1 st1 o1 ht
      subst h1
      cases h
      simp
    | fatal st1 m o1 =>
      rw [ht] at h
      cases h

/-- With the secret number equal to 0 a turn can never reach the victory
`break`: every guess that survives `Guess::new` is at least 1. -/
theorem turn_ne_terminated_of_secret_zero (rs rl : Nat) (line : String) (st : GameState)
    (hs : st.secret = 0) (st' : GameState) (o : List String) :
    turn rs rl line st ≠ .terminated st' o := by
  intro h
  unfold turn at h
  cases hp : parseI32 line with
  | none => simp [hp] at h
  | some g =>
    by_cases hg : g < 1 ∨ g > 100
    · simp [hp, Guess.new, if_pos hg] at h
    · push_neg at hg
      have hcmp : cmp g st.secret = .gt := by
        rw [hs]
        unfold cmp
        rw [if_neg (by omega), if_pos (by omega)]
      simp only [hp, Guess.new, if_neg (by omega : ¬(g < 1 ∨ g > 100)), hcmp] at h
      cases hm : large_variations[gen_range 0 large_variations.length rl]? <;>
        simp [hm, hcmp] at h

/-- With the secret number equal to 0 the whole loop can never reach the
victory `break`, however long the schedule. -/
theorem runLoop_ne_terminated_of_secret_zero (schedule : List (Nat × Nat × String)) :
    ∀ (st : GameState) (out : List String), st.secret = 0 →
      ∀ (st' : GameState) (o : List String),
        runLoop schedule st out ≠ .terminated st' o := by
  induction schedule with
  | nil =>
    intro st out hs st' o h
    simp [runLoop] at h
  | cons e rest ih =>
    obtain ⟨rs, rl, line⟩ := e
    intro st out hs st' o h
    unfold runLoop at h
    cases ht : turn rs rl line st with
    | again st1 o1 =>
      rw [ht] at h
      have h1 := (turn_cases rs rl line st).2.1 st1 o1 ht
      refine ih st1 (out ++ o1) ?_ st' o h
      rw [h1]
      exact hs
    | terminated st1 o1 =>
      exact turn_ne_terminated_of_secret_zero rs rl line st hs st1 o1 ht
    | fatal st1 m o1 =>
      rw [ht] at h
      cases h

/-! ### Claims -/

/-- C1: For every integer `v` with `1 ≤ v ≤ 100`, `Guess::new(v)` succeeds,
the `value()` accessor of the returned guess returns exactly `v`, and the
returned guess satisfies `1 ≤ value ≤ 100`. -/
theorem c1_guess_new_in_range (v : Int) (h1 : 1 ≤ v) (h2 : v ≤ 100) :
    Guess.new v = .ok { value := v } ∧
    Guess.value { value := v } = v ∧
    1 ≤ Guess.value { value := v } ∧ Guess.value { value := v } ≤ 100 := by
  refine ⟨?_, rfl, h1, h2⟩
  unfold Guess.new
  rw [if_neg (by omega)]

/-- Witness for C1 at `v = 42`. -/
theorem c1_guess_new_in_range_witness :
    Guess.new 42 = .ok { value := 42 } ∧
    Guess.value { value := 42 } = 42 ∧
    1 ≤ Guess.value { value := 42 } ∧ Guess.value { value := 42 } ≤ 100 :=
  c1_guess_new_in_range 42 (by decide) (by decide)

/-- C2: For every integer `v` with `v < 1` or `v > 100`, `Guess::new(v)`
does not return a `Guess`: it takes the `panic!` branch carrying the
descriptive range-violation message, with no retry or recovery path. -/
theorem c2_guess_new_out_of_range (v : Int) (h : v < 1 ∨ v > 100) :
    Guess.new v = .error ("Guess value must be between 1 and 100, got " ++ toString v) ∧
    ∀ g : Guess, Guess.new v ≠ .ok g := by
  constructor
  · unfold Guess.new
    rw [if_pos h]
  · intro g hg
    unfold Guess.new at hg
    rw [if_pos h] at hg
    cases hg

/-- Witness for C2 at `v = 150`. -/
theorem c2_guess_new_out_of_range_witness :
    Guess.new 150 = .error ("Guess value must be between 1 and 100, got " ++ toString (150 : Int)) ∧
    ∀ g : Guess, Guess.new 150 ≠ .ok g :=
  c2_guess_new_out_of_range 150 (by decide)

/-- C6: A turn whose input line does not parse as an integer aborts fatally
with the `expect` message `"guess must be a number"`, printing no
message-pool output and leaving the state (in particular the attempt
counter) untouched. -/
theorem c6_parse_failure_fatal (rs rl : Nat) (line : String) (st : GameState)
    (hp : parseI32 line = none) :
    turn rs rl line st = .fatal st "guess must be a number" [] := by
  unfold turn
  simp [hp]

/-- Witness for C6 on input `"abc"`. -/
theorem c6_parse_failure_fatal_witness :
    parseI32 "abc" = none ∧
    turn 0 0 "abc" { secret := 50, attempts := 3 } =
      .fatal { secret := 50, attempts := 3 } "guess must be a number" [] :=
  ⟨by decide, c6_parse_failure_fatal 0 0 "abc" { secret := 50, attempts := 3 } (by decide)⟩

/-- C10: A turn whose input line parses to an integer outside `[1, 100]`
aborts fatally inside `Guess::new`, before `attempts += 1` and before any
message-pool output: the carried state is exactly the pre-turn state and
the printed output of the turn is empty. -/
theorem c10_range_violation_fatal (rs rl : Nat) (line : String) (st : GameState) (g : Int)
    (hp : parseI32 line = some g) (hr : g < 1 ∨ g > 100) :
    turn rs rl line st =
      .fatal st ("Guess value must be between 1 and 100, got " ++ toString g) [] := by
  unfold turn
  simp [hp, Guess.new, if_pos hr]

/-- C3: A turn whose validated guess equals the secret ends the loop (the
`break` in the `Ordering::Equal` arm, the sole way out of the `loop`),
after `attempts += 1`, and prints exactly the two-line victory message
reporting the secret number and the accumulated attempt count including
this winning turn. -/
theorem c3_equal_guess_terminates (rs rl : Nat) (line : String) (st : GameState) (g : Int)
    (hp : parseI32 line = some g) (h1 : 1 ≤ g) (h2 : g ≤ 100) (he : g = st.secret) :
    turn rs rl line st =
      .terminated { st with attempts := st.attempts + 1 }
        ["Cue the confetti!!",
         "The secret number is indeed " ++ toString st.secret ++
           "! You guessed it right with only " ++ toString (st.attempts + 1) ++ " tries! "] := by
  have hc : cmp g st.secret = .eq := by
    subst he
    unfold cmp
    rw [if_neg (lt_irrefl st.secret), if_neg (lt_irrefl st.secret)]
  unfold turn
  simp [hp, Guess.new, if_neg (by omega : ¬(g < 1 ∨ g > 100)), hc]

/-- Witness for C3: secret 42 guessed on the third turn. -/
theorem c3_equal_guess_terminates_witness :
    turn 0 0 "42" { secret := 42, attempts := 2 } =
      .terminated { secret := 42, attempts := 3 }
        ["Cue the confetti!!",
         "The secret number is indeed 42! You guessed it right with only 3 tries! "] :=
  (c3_equal_guess_terminates 0 0 "42" { secret := 42, attempts := 2 } 42
    (by decide) (by decide) (by decide) rfl).trans (by decide)

/-- C4: A turn whose validated guess differs from the secret does not end
the loop: it yields `again`, increments the attempt counter by exactly 1,
and prints exactly one message, drawn from the `small_variations` pool when
the guess is below the secret and from the `large_variations` pool when it
is above. -/
theorem c4_unequal_guess_continues (rs rl : Nat) (line : String) (st : GameState) (g : Int)
    (hp : parseI32 line = some g) (h1 : 1 ≤ g) (h2 : g ≤ 100) (hne : g ≠ st.secret) :
    ∃ m : String,
      turn rs rl line st = .again { st with attempts := st.attempts + 1 } [m] ∧
      (g < st.secret → m ∈ small_variations) ∧
      (st.secret < g → m ∈ large_variations) := by
  have hg : ¬(g < 1 ∨ g > 100) := by omega
  rcases lt_trichotomy g st.secret with hlt | heq | hgt
  · refine ⟨small_variations.getD (rs % 10) "", turn_lt_eq rs rl line st g hp hg hlt, ?_, ?_⟩
    · intro _
      have hidx : rs % 10 < small_variations.length := by
        rw [small_variations_length]
        omega
      rw [List.getD_eq_getElem?_getD, List.getElem?_eq_getElem hidx, Option.getD_some]
      exact List.getElem_mem hidx
    · intro h
      omega
  · exact absurd heq hne
  · refine ⟨large_variations.getD (rl % 10) "", turn_gt_eq rs rl line st g hp hg hgt, ?_, ?_⟩
    · intro h
      omega
    · intro _
      have hidx : rl % 10 < large_variations.length := by
        rw [large_variations_length]
        omega
      rw [List.getD_eq_getElem?_getD, List.getElem?_eq_getElem hidx, Option.getD_some]
      exact List.getElem_mem hidx

/-- Witness for C4: guess 30 against secret 50. -/
theorem c4_unequal_guess_continues_witness :
    ∃ m : String,
      turn 3 7 "30" { secret := 50, attempts := 0 } =
        .again { secret := 50, attempts := 1 } [m] ∧
      ((30 : Int) < 50 → m ∈ small_variations) ∧
      ((50 : Int) < 30 → m ∈ large_variations) :=
  c4_unequal_guess_continues 3 7 "30" { secret := 50, attempts := 0 } 30
    (by decide) (by decide) (by decide) (by decide)

/-- C5: The attempt counter starts at 0 before the first turn, each
completed turn (`again` or `terminated`) increments it by exactly 1 — the
increment happens before the three-way comparison, so the winning turn
reports the incremented value — it never decreases on any turn, and at
termination it equals the total number of loop iterations executed,
including the winning one. -/
theorem c5_attempts_counter (rs rl : Nat) (line : String) (st : GameState) :
    (∀ st' o, turn rs rl line st = .again st' o → st'.attempts = st.attempts + 1) ∧
    (∀ st' o, turn rs rl line st = .terminated st' o → st'.attempts = st.attempts + 1) ∧
    st.attempts ≤ ((turn rs rl line st).state).attempts ∧
    (∀ (schedule : List (Nat × Nat × String)) (st0 : GameState) (out : List String)
        (st' : GameState) (o : List String),
        runLoop schedule st0 out = .terminated st' o →
        st'.attempts = st0.attempts + (consumedTurns schedule st0 : Int)) ∧
    (∀ (seed : Nat) (schedule : List (Nat × Nat × String)) (st' : GameState) (o : List String),
        guess_a_number seed schedule = .terminated st' o →
        st'.attempts = (consumedTurns schedule
          { secret := gen_range_int 0 100 seed, attempts := 0 } : Int)) := by
  have hc := turn_cases rs rl line st
  refine ⟨?_, ?_, ?_, ?_, ?_⟩
  · intro st' o h
    rw [hc.2.1 st' o h]
  · intro st' o h
    rw [hc.2.2.1 st' o h]
  · cases ht : turn rs rl line st with
    | again st' o =>
      have h1 := hc.2.1 st' o ht
      subst h1
      simp [TurnResult.state]
    | terminated st' o =>
      have h1 := hc.2.2.1 st' o ht
      subst h1
      simp [TurnResult.state]
    | fatal st' m o =>
      rcases hc.2.2.2 st' m o ht with h1 | h1 <;> subst h1 <;> simp [TurnResult.state]
  · exact fun schedule st0 out st' o h => runLoop_terminated_attempts schedule st0 out st' o h
  · intro seed schedule st' o h
    simp only [guess_a_number] at h
    simpa using runLoop_terminated_attempts schedule _ _ st' o h

/-- Witness for C5: the winning turn carries the counter from 2 to 3. -/
theorem c5_attempts_counter_witness :
    ({ secret := 42, attempts := 3 } : GameState).attempts =
      ({ secret := 42, attempts := 2 } : GameState).attempts + 1 :=
  (c5_attempts_counter 0 0 "42" { secret := 42, attempts := 2 }).2.1
    { secret := 42, attempts := 3 }
    ["Cue the confetti!!",
     "The secret number is indeed 42! You guessed it right with only 3 tries! "]
    (by decide)

/-- C7: The secret number is drawn once, at game start, by
`gen_range(0..100)`: it always lies in the half-open range `[0, 100)`, each
target in that range is hit by exactly one seed residue (the draw is the
uniform reduction of the raw random value), and no execution of the loop
ever changes it. -/
theorem c7_secret_number (seed : Nat) :
    (0 ≤ gen_range_int 0 100 seed ∧ gen_range_int 0 100 seed < 100) ∧
    (∀ t : Int, 0 ≤ t → t < 100 →
        ((Finset.range 100).filter (fun r => gen_range_int 0 100 r = t)).card = 1) ∧
    (∀ (schedule : List (Nat × Nat × String)) (st : GameState) (out : List String),
        ((runLoop schedule st out).state).secret = st.secret) ∧
    (∀ (schedule : List (Nat × Nat × String)),
        ((guess_a_number seed schedule).state).secret = gen_range_int 0 100 seed) := by
  refine ⟨⟨?_, ?_⟩, ?_, ?_, ?_⟩
  · simp only [gen_range_int]
    omega
  · simp only [gen_range_int]
    have h := Nat.mod_lt seed (show 0 < ((100 : Int) - 0).toNat by decide)
    omega
  · intro t ht0 ht100
    have h100 : ((100 : Int) - 0).toNat = 100 := by decide
    rw [Finset.card_eq_one]
    refine ⟨t.toNat, ?_⟩
    ext r
    simp only [Finset.mem_filter, Finset.mem_range, Finset.mem_singleton, gen_range_int, h100]
    constructor
    · rintro ⟨hr, he⟩
      rw [Nat.mod_eq_of_lt hr] at he
      omega
    · rintro rfl
      have htn : t.toNat < 100 := by omega
      refine ⟨htn, ?_⟩
      rw [Nat.mod_eq_of_lt htn]
      omega
  · exact fun schedule st out => runLoop_state_secret schedule st out
  · intro schedule
    simp only [guess_a_number]
    exact runLoop_state_secret schedule _ _

/-- Witness for C7 at seed 123 and target 42. -/
theorem c7_secret_number_witness :
    (0 ≤ gen_range_int 0 100 123 ∧ gen_range_int 0 100 123 < 100) ∧
    ((Finset.range 100).filter (fun r => gen_range_int 0 100 r = 42)).card = 1 ∧
    ((guess_a_number 123 []).state).secret = gen_range_int 0 100 123 :=
  ⟨(c7_secret_number 123).1,
   (c7_secret_number 123).2.1 42 (by decide) (by decide),
   (c7_secret_number 123).2.2.2 []⟩

/-- C8: On a turn with a validated guess, both pool indices are freshly
reduced into the bounds of their pools — so indexing a pool never fails —
and the draw for the pool the comparison does not select has no effect:
the whole turn result is unchanged under any other value of the unused raw
draw. -/
theorem c8_message_pool_draws (rs rl : Nat) (line : String) (st : GameState) (g : Int)
    (hp : parseI32 line = some g) (h1 : 1 ≤ g) (h2 : g ≤ 100) :
    gen_range 0 small_variations.length rs < small_variations.length ∧
    gen_range 0 large_variations.length rl < large_variations.length ∧
    (small_variations[gen_range 0 small_variations.length rs]?).isSome = true ∧
    (large_variations[gen_range 0 large_variations.length rl]?).isSome = true ∧
    (g < st.secret → ∀ rl2 : Nat, turn rs rl line st = turn rs rl2 line st) ∧
    (st.secret < g → ∀ rs2 : Nat, turn rs rl line st = turn rs2 rl line st) := by
  have hg : ¬(g < 1 ∨ g > 100) := by omega
  have hsi : gen_range 0 small_variations.length rs < small_variations.length := by
    simp only [gen_range, small_variations_length]
    omega
  have hli : gen_range 0 large_variations.length rl < large_variations.length := by
    simp only [gen_range, large_variations_length]
    omega
  refine ⟨hsi, hli, ?_, ?_, ?_, ?_⟩
  · rw [List.getElem?_eq_getElem hsi]
    rfl
  · rw [List.getElem?_eq_getElem hli]
    rfl
  · intro hlt rl2
    rw [turn_lt_eq rs rl line st g hp hg hlt, turn_lt_eq rs rl2 line st g hp hg hlt]
  · intro hgt rs2
    rw [turn_gt_eq rs rl line st g hp hg hgt, turn_gt_eq rs2 rl line st g hp hg hgt]

/-- Witness for C8: guess 30 against secret 50; swapping the unused large
draw from 7 to 99 leaves the turn unchanged. -/
theorem c8_message_pool_draws_witness :
    gen_range 0 small_variations.length 3 < small_variations.length ∧
    (small_variations[gen_range 0 small_variations.length 3]?).isSome = true ∧
    turn 3 7 "30" { secret := 50, attempts := 0 } =
      turn 3 99 "30" { secret := 50, attempts := 0 } :=
  ⟨(c8_message_pool_draws 3 7 "30" { secret := 50, attempts := 0 } 30
      (by decide) (by decide) (by decide)).1,
   (c8_message_pool_draws 3 7 "30" { secret := 50, attempts := 0 } 30
      (by decide) (by decide) (by decide)).2.2.1,
   (c8_message_pool_draws 3 7 "30" { secret := 50, attempts := 0 } 30
      (by decide) (by decide) (by decide)).2.2.2.2.1 (by decide) 99⟩

/-- C9: The generator can produce the secret 0 (seed residue 0 gives it),
every guess surviving `Guess::new` is at least 1, so with secret 0 the
three-way comparison never yields `Equal` and neither a single turn nor
the whole loop ever reaches the terminated state: the game is unwinnable. -/
theorem c9_secret_zero_unwinnable :
    gen_range_int 0 100 0 = 0 ∧
    (∀ g : Int, 1 ≤ g → g ≤ 100 → cmp g 0 ≠ .eq) ∧
    (∀ (rs rl : Nat) (line : String) (st : GameState), st.secret = 0 →
        ∀ (st' : GameState) (o : List String), turn rs rl line st ≠ .terminated st' o) ∧
    (∀ (schedule : List (Nat × Nat × String)) (st : GameState) (out : List String),
        st.secret = 0 →
        ∀ (st' : GameState) (o : List String),
          runLoop schedule st out ≠ .terminated st' o) ∧
    (∀ (schedule : List (Nat × Nat × String)) (st' : GameState) (o : List String),
        guess_a_number 0 schedule ≠ RunResult.terminated st' o) := by
  refine ⟨by decide, ?_, ?_, ?_, ?_⟩
  · intro g hg1 hg2 h
    unfold cmp at h
    rw [if_neg (by omega), if_pos (by omega)] at h
    cases h
  · exact fun rs rl line st hs st' o => turn_ne_terminated_of_secret_zero rs rl line st hs st' o
  · exact fun schedule st out hs st' o =>
      runLoop_ne_terminated_of_secret_zero schedule st out hs st' o
  · intro schedule st' o
    simp only [guess_a_number]
    exact runLoop_ne_terminated_of_secret_zero schedule _ _ (by decide) st' o

/-- Witness for C9: one valid guess against secret 0 does not win. -/
theorem c9_secret_zero_unwinnable_witness :
    runLoop [(0, 0, "50")] { secret := 0, attempts := 0 } [] ≠
      RunResult.terminated { secret := 0, attempts := 1 } [] :=
  c9_secret_zero_unwinnable.2.2.2.1 [(0, 0, "50")] { secret := 0, attempts := 0 } [] rfl
    { secret := 0, attempts := 1 } []

/-- Witness for C10 on input `"150"`. -/
theorem c10_range_violation_fatal_witness :
    parseI32 "150" = some 150 ∧
    turn 0 0 "150" { secret := 50, attempts := 3 } =
      .fatal { secret := 50, attempts := 3 }
        ("Guess value must be between 1 and 100, got " ++ toString (150 : Int)) [] :=
  ⟨by decide, c10_range_violation_fatal 0 0 "150" { secret := 50, attempts := 3 } 150
    (by decide) (by decide)⟩

end RustErrHandling
